import Mathlib

/-!
Verification of the Risk-Gated Task Execution Engine (OpenAegis).

Shallow embedding of the engine's core:
  * `src/agent/state.py`   — `RiskLevel`, `TaskStatus`, `Task`, `AgentState` and its methods
  * `src/sentinel/auditor.py` — `Auditor.assess_task_risk`, `requires_approval`,
    `request_approval`, `deny_task`
  * `src/agent/executor.py` — `Executor.execute_task`, `Executor.execute_plan`
  * `src/agent/orchestrator.py` — `AgentOrchestrator.deny_task`, `continue_execution`

Python machine details that matter here and are modelled faithfully:
  * `RiskLevel(str, Enum)` members compare as *strings*, so `max(a, b)` uses the
    lexicographic order on the values "low" / "medium" / "high" / "critical"
    (in which "critical" < "high" < "low" < "medium").  See `pyMax`.
  * `dict` assignment replaces the value of an existing key in place and keeps
    insertion order; see `dictSet`.
  * `task.tool_input.get(k, default)` is modelled by an `Option` field plus `getD`.
-/

namespace OpenAegis

/-- `RiskLevel` from `src/agent/state.py` (a `str`-valued `Enum`). -/
inductive RiskLevel where
  | low
  | medium
  | high
  | critical
deriving DecidableEq, Repr

/-- The `str` value carried by each `RiskLevel` member. -/
def RiskLevel.value : RiskLevel → String
  | .low => "low"
  | .medium => "medium"
  | .high => "high"
  | .critical => "critical"

/-- Lexicographic (code-point) order on character lists — Python string `<`. -/
def charsLt : List Char → List Char → Bool
  | [], [] => false
  | [], _ :: _ => true
  | _ :: _, [] => false
  | a :: as, b :: bs => decide (a < b) || (a == b && charsLt as bs)

/-- Python `a < b` on strings (lexicographic by code point). -/
def pyStrLt (a b : String) : Bool :=
  charsLt a.data b.data

/-- Python `max(a, b)` on `RiskLevel`: since the enum mixes in `str`, `max`
compares the member *strings* lexicographically and returns `b` iff `b > a`. -/
def pyMax (a b : RiskLevel) : RiskLevel :=
  if pyStrLt a.value b.value then b else a

/-- `TaskStatus` from `src/agent/state.py`. -/
inductive TaskStatus where
  | pending
  | in_progress
  | completed
  | failed
  | blocked
deriving DecidableEq, Repr

/-- The `tool_input` dict of a task, restricted to the keys the engine reads
(`code`, `path`, `command`, `text`, `keys`).  `none` models an absent key, so
`dict.get(k, default)` becomes `Option.getD`. -/
structure ToolInput where
  code : Option String := none
  path : Option String := none
  command : Option String := none
  text : Option String := none
  keys : Option (List String) := none
deriving DecidableEq, Repr

/-- `Task` from `src/agent/state.py`.  `result` is an opaque value in the
source; it is modelled as a `String`. -/
structure Task where
  id : String
  description : String := ""
  tool : String
  tool_input : ToolInput := {}
  status : TaskStatus := .pending
  dependencies : List String := []
  risk_level : RiskLevel := .low
  result : Option String := none
  error : Option String := none
  requires_approval : Bool := false
  approved : Bool := false
  retry_count : Nat := 0
deriving DecidableEq, Repr

/-! ### String helpers mirroring the Python primitives used by the auditor -/

/-- ASCII lowering, modelling `str.lower()` on the ASCII strings involved. -/
def pyLower (s : String) : String :=
  String.mk (s.data.map Char.toLower)

/-- Whether `pre` is a prefix of `s` (character lists). -/
def charsPrefix : List Char → List Char → Bool
  | [], _ => true
  | _ :: _, [] => false
  | a :: as, b :: bs => a == b && charsPrefix as bs

/-- Whether `sub` occurs inside `s` (character lists); the empty list occurs
everywhere, matching Python `"" in s`. -/
def charsContains (s sub : List Char) : Bool :=
  match s with
  | [] => charsPrefix sub []
  | _ :: rest => charsPrefix sub s || charsContains rest sub

/-- Python `sub in s` on strings. -/
def strContains (s sub : String) : Bool :=
  charsContains s.data sub.data

/-- Python whitespace for `str.split()` / `\s`. -/
def isSpaceChar (c : Char) : Bool :=
  c == ' ' || c == '\t' || c == '\n' || c == '\r' || c == '\x0b' || c == '\x0c'

/-- A regex word character (`\w`): alphanumeric or underscore. -/
def isWordChar (c : Char) : Bool :=
  c.isAlphanum || c == '_'

/-- `str.split()` with no argument: split on runs of whitespace, dropping
empty fields. -/
def pySplitGo (cur : List Char) (acc : List String) : List Char → List String
  | [] => if cur.isEmpty then acc.reverse else (String.mk cur.reverse :: acc).reverse
  | c :: rest =>
    if isSpaceChar c then
      if cur.isEmpty then pySplitGo [] acc rest
      else pySplitGo [] (String.mk cur.reverse :: acc) rest
    else pySplitGo (c :: cur) acc rest

/-- `command.split()`. -/
def pySplit (s : String) : List String :=
  pySplitGo [] [] s.data

/-- `command.split()[0] if command.split() else ''`. -/
def firstToken (s : String) : String :=
  match pySplit s with
  | [] => ""
  | w :: _ => w

/-- Python `str(list_of_strings)`: `"['a', 'b']"` (quote = `chr 39`). -/
def pyStrList (ks : List String) : String :=
  let q := String.singleton (Char.ofNat 39)
  "[" ++ String.intercalate ", " (ks.map (fun k => q ++ k ++ q)) ++ "]"

/-! ### The destructive-command regexes of `assess_task_risk`

Each pattern in `destructive_patterns` is of the form "word boundary, then a
literal core, then a suffix" where the suffix is `\s+`, `\s*/`, a literal `.`,
or a word boundary.  `patSearch` scans every position of the command, exactly
like `re.search`. -/

/-- The suffix shape of one destructive pattern. -/
inductive PatSuffix where
  | oneSpace      -- `\s+` : at least one whitespace character follows
  | spacesSlash   -- `\s*/` : optional whitespace then a slash
  | dot           -- a literal `.`
  | boundary      -- `\b` : end of string or a non-word character
deriving DecidableEq, Repr

/-- One destructive pattern: `\b`, a literal core, then a suffix. -/
structure Pat where
  core : List Char
  suffix : PatSuffix
deriving DecidableEq, Repr

/-- Does the suffix of a pattern match at the start of `rest`? -/
def sufMatch : PatSuffix → List Char → Bool
  | .oneSpace, c :: _ => isSpaceChar c
  | .oneSpace, [] => false
  | .spacesSlash, rest => (rest.dropWhile isSpaceChar).head? == some '/'
  | .dot, c :: _ => c == '.'
  | .dot, [] => false
  | .boundary, [] => true
  | .boundary, c :: _ => !isWordChar c

/-- `\b` before the first character `first` of the core, given the previous
character (`none` at the start of the string): exactly one side is a word
character. -/
def leftBoundary (prev : Option Char) (first : Char) : Bool :=
  if isWordChar first then
    match prev with
    | none => true
    | some p => !isWordChar p
  else
    match prev with
    | none => false
    | some p => isWordChar p

/-- Does pattern `p` match exactly at the start of `s` (with `prev` the
character before `s`)? -/
def patAt (prev : Option Char) (s : List Char) (p : Pat) : Bool :=
  match p.core with
  | [] => false
  | c :: _ =>
    leftBoundary prev c && charsPrefix p.core s && sufMatch p.suffix (s.drop p.core.length)

/-- `re.search`: does `p` match at some position of `s`? -/
def patSearch (prev : Option Char) (s : List Char) (p : Pat) : Bool :=
  match s with
  | [] => false
  | c :: rest => patAt prev s p || patSearch (some c) rest p

/-- `destructive_patterns` from `Auditor.assess_task_risk`:
`\brm\s+`, `\bunlink\s+`, `\bdd\s+`, `\bshred\s+`, `\b>\s*/`, `\btruncate\s+`,
`\bmkfs\.`, `\bformat\b`, `\bwipefs\b`. -/
def destructivePatterns : List Pat :=
  [ ⟨"rm".data, .oneSpace⟩, ⟨"unlink".data, .oneSpace⟩, ⟨"dd".data, .oneSpace⟩,
    ⟨"shred".data, .oneSpace⟩, ⟨">".data, .spacesSlash⟩, ⟨"truncate".data, .oneSpace⟩,
    ⟨"mkfs".data, .dot⟩, ⟨"format".data, .boundary⟩, ⟨"wipefs".data, .boundary⟩ ]

/-- `any(re.search(pattern, command) for pattern in destructive_patterns)`. -/
def destructiveMatch (command : String) : Bool :=
  destructivePatterns.any (fun p => patSearch none command.data p)

/-! ### `Auditor.assess_task_risk` (src/sentinel/auditor.py, lines 55-142) -/

/-- The body of `Auditor.assess_task_risk`, as a function of the only task
attributes it reads: `task.tool`, `task.risk_level` and `task.tool_input`.
Each `if task.tool == ...:` block of the source is one `let` step updating the
running `(risk_level, risk_factors)` pair. -/
def assessCore (tool : String) (nominal : RiskLevel) (input : ToolInput) :
    RiskLevel × String :=
  let rl := nominal
  let rf : List String := []
  let (rl, rf) :=
    if tool == "code_execution" then
      let rl := pyMax rl RiskLevel.high
      let rf := rf ++ ["code_execution_enabled"]
      let code := input.code.getD ""
      if ["subprocess", "os.system", "eval", "exec"].any
          (fun k => strContains (pyLower code) k) then
        (RiskLevel.critical, rf ++ ["dangerous_code_patterns"])
      else (rl, rf)
    else (rl, rf)
  let (rl, rf) :=
    if tool == "file_write" then
      let rl := pyMax rl RiskLevel.medium
      let rf := rf ++ ["filesystem_modification"]
      let path := input.path.getD ""
      if [".env", "config", "secret", "key"].any
          (fun k => strContains (pyLower path) k) then
        (RiskLevel.high, rf ++ ["sensitive_file_modification"])
      else (rl, rf)
    else (rl, rf)
  let (rl, rf) :=
    if tool == "web_search" then
      (pyMax rl RiskLevel.medium, rf ++ ["external_network_access"])
    else (rl, rf)
  let (rl, rf) :=
    if tool == "bash_command" then
      let command := input.command.getD ""
      if destructiveMatch command then
        (RiskLevel.critical, rf ++ ["destructive_operation"])
      else if ["sudo", "chmod 777", "chown root", "systemctl", "/etc/", "/System/"].any
          (fun k => strContains command k) then
        (RiskLevel.high, rf ++ ["system_modification"])
      else if (["curl", "wget"].any (fun k => strContains command k)) &&
          (strContains command "|" || strContains command "bash" ||
            strContains command "sh") then
        (RiskLevel.high, rf ++ ["download_and_execute"])
      else if ["mv", "cp", "mkdir", "touch", "echo"].any
          (fun k => strContains (firstToken command) k) then
        (RiskLevel.medium, rf ++ ["file_modification"])
      else if ["ls", "find", "cat", "grep", "head", "tail", "wc", "file", "stat"].any
          (fun k => strContains (firstToken command) k) then
        (RiskLevel.low, rf ++ ["read_only_operation"])
      else
        (RiskLevel.medium, rf ++ ["shell_command_execution"])
    else (rl, rf)
  let (rl, rf) :=
    if tool == "screenshot" then
      (pyMax rl RiskLevel.low, rf ++ ["screen_capture"])
    else (rl, rf)
  let (rl, rf) :=
    if tool == "mouse_move" || tool == "mouse_click" then
      (pyMax rl RiskLevel.medium, rf ++ ["mouse_control"])
    else (rl, rf)
  let (rl, rf) :=
    if tool == "keyboard_type" || tool == "keyboard_press" || tool == "keyboard_hotkey" then
      let rl := pyMax rl RiskLevel.medium
      let rf := rf ++ ["keyboard_control"]
      let text := input.text.getD ""
      let keys := input.keys.getD []
      if ["password", "token", "key", "secret"].any
          (fun k => strContains (pyLower text ++ pyLower (pyStrList keys)) k) then
        (RiskLevel.high, rf ++ ["sensitive_input_detected"])
      else (rl, rf)
    else (rl, rf)
  let explanation :=
    "Risk level: " ++ rl.value ++ ". Factors: " ++
      (if rf.isEmpty then "none" else String.intercalate ", " rf)
  (rl, explanation)

/-- `Auditor.assess_task_risk(task)`: returns the assessed risk level and the
explanation string (which lists the risk factors). -/
def assess_task_risk (t : Task) : RiskLevel × String :=
  assessCore t.tool t.risk_level t.tool_input

/-- The explicit numeric order used by `Auditor.requires_approval`:
`LOW: 0, MEDIUM: 1, HIGH: 2, CRITICAL: 3`. -/
def risk_order : RiskLevel → Nat
  | .low => 0
  | .medium => 1
  | .high => 2
  | .critical => 3

/-- `Auditor.requires_approval(task)` with the configured
`approval_threshold`: approval is required iff
`risk_order[assessed] >= risk_order[threshold]`. -/
def requires_approval (approval_threshold : RiskLevel) (t : Task) : Bool :=
  decide (risk_order approval_threshold ≤ risk_order (assess_task_risk t).1)

/-! ### The approval ledger (`src/sentinel/auditor.py`) -/

/-- `AuditAction` from `src/sentinel/auditor.py`. -/
inductive AuditAction where
  | approve
  | deny
  | request_info
deriving DecidableEq, Repr

/-- `AuditLog` from `src/sentinel/auditor.py`.  The uuid and the timestamps
carry no logic and are omitted. -/
structure AuditLog where
  task_id : String
  task_description : String
  tool : String
  risk_level : RiskLevel
  user_id : String
  decision : Option AuditAction := none
  decision_reason : Option String := none
deriving DecidableEq, Repr

/-- Python `m[k] = v` on a dict represented as an insertion-ordered
association list: replace the value of an existing key in place, otherwise
append the new pair at the end. -/
def dictSet {β : Type} (m : List (String × β)) (k : String) (v : β) :
    List (String × β) :=
  if m.any (fun kv => kv.1 == k) then
    m.map (fun kv => if kv.1 == k then (k, v) else kv)
  else m ++ [(k, v)]

/-- The mutable fields of `Auditor`: the pending-approval dict (keyed by
task id) and the append-only history, plus the configured threshold. -/
structure Auditor where
  pending_approvals : List (String × AuditLog)
  audit_history : List AuditLog
  approval_threshold : RiskLevel
deriving DecidableEq, Repr

/-- `Auditor.request_approval(task, user_id)` (lines 158-176): assess the
task, build an `AuditLog`, store it under `task.id` in `pending_approvals`
(a plain dict assignment — there is no existence check), and return it. -/
def request_approval (a : Auditor) (t : Task) (user_id : String) :
    AuditLog × Auditor :=
  let assessed := assess_task_risk t
  let audit_log : AuditLog :=
    { task_id := t.id, task_description := t.description, tool := t.tool,
      risk_level := assessed.1, user_id := user_id }
  (audit_log, { a with pending_approvals := dictSet a.pending_approvals t.id audit_log })

/-- `Auditor.deny_task(task_id, reason)` (lines 196-212): `False` and no
mutation when the id has no pending entry; otherwise pop the entry, stamp the
decision, append it to the history and return `True`. -/
def auditor_deny_task (a : Auditor) (task_id : String) (reason : String) :
    Bool × Auditor :=
  match a.pending_approvals.find? (fun kv => kv.1 == task_id) with
  | none => (false, a)
  | some kv =>
    let audit_log :=
      { kv.2 with decision := some AuditAction.deny,
                  decision_reason := some (if reason == "" then "Denied by user" else reason) }
    (true,
      { a with
          pending_approvals := a.pending_approvals.filter (fun kv => !(kv.1 == task_id)),
          audit_history := a.audit_history ++ [audit_log] })

/-! ### `AgentState` (`src/agent/state.py`) -/

/-- The fields of `AgentState` the execution engine reads or writes.
`messages`, `context_documents`, `guardrail_violations` and `metadata` are
never touched by the modelled operations and are omitted. -/
structure AgentState where
  current_plan : List Task
  completed_tasks : List Task
  tool_outputs : List (String × String) := []
  iteration_count : Nat := 0
  max_iterations : Nat := 10
  is_complete : Bool := false
  error : Option String := none
deriving DecidableEq, Repr

/-- The body of `AgentState.get_next_task` (lines 65-72), also reporting the
position of the returned task so that in-place mutation of the selected task
object can be modelled positionally.  Scans `current_plan` in order for the
first Pending task all of whose dependencies are among the completed ids. -/
def get_next_go (completed_ids : List String) : List Task → Nat → Option (Nat × Task)
  | [], _ => none
  | t :: rest, i =>
    if t.status == TaskStatus.pending &&
        t.dependencies.all (fun dep_id => completed_ids.contains dep_id) then
      some (i, t)
    else get_next_go completed_ids rest (i + 1)

/-- `AgentState.get_next_task()` with the index of the selected task. -/
def get_next_task (st : AgentState) : Option (Nat × Task) :=
  get_next_go (st.completed_tasks.map (fun u => u.id)) st.current_plan 0

/-- The loop of `AgentState.mark_task_complete` (lines 74-81): walk
`current_plan`; at the first task with the given id, set its status to
Completed and its result, and move it out of the plan.  Returns the new plan
and the (zero- or one-element) list of moved tasks. -/
def completeSplit (task_id : String) (result : String) :
    List Task → List Task × List Task
  | [] => ([], [])
  | t :: rest =>
    if t.id == task_id then
      (rest, [{ t with status := TaskStatus.completed, result := some result }])
    else
      ((t :: (completeSplit task_id result rest).1), (completeSplit task_id result rest).2)

/-- `AgentState.mark_task_complete(task_id, result)`. -/
def mark_task_complete (st : AgentState) (task_id : String) (result : String) :
    AgentState :=
  { st with
      current_plan := (completeSplit task_id result st.current_plan).1,
      completed_tasks := st.completed_tasks ++ (completeSplit task_id result st.current_plan).2 }

/-- The loop of `AgentState.mark_task_failed` (lines 83-88): set status
Failed and the error on the first task with the given id, in place. -/
def failFirst (task_id : String) (error : String) : List Task → List Task
  | [] => []
  | t :: rest =>
    if t.id == task_id then
      { t with status := TaskStatus.failed, error := some error } :: rest
    else t :: failFirst task_id error rest

/-- `AgentState.mark_task_failed(task_id, error)`. -/
def mark_task_failed (st : AgentState) (task_id : String) (error : String) :
    AgentState :=
  { st with current_plan := failFirst task_id error st.current_plan }

/-- `AgentState.should_continue()` (line 100-101). -/
def should_continue (st : AgentState) : Bool :=
  !st.is_complete && decide (st.iteration_count < st.max_iterations) && st.error == none

/-! ### `Executor` (`src/agent/executor.py`)

The tool backends are external collaborators; a backend is modelled as an
oracle `Task → Nat → Except String String` mapping the task (as passed to
`_execute_tool`, i.e. with its current status and retry count) and the retry
count at call time to either a result or a raised error string.  An unknown
tool (the `ValueError` branch of `_execute_tool`) is just another error
outcome of the oracle. -/

/-- Executor configuration: `MAX_RETRIES` and `RETRY_DELAY_SECONDS`. -/
structure ExecCfg where
  max_retries : Nat
  retry_delay : Nat
deriving DecidableEq, Repr

/-- How one call of `Executor.execute_task` ends: `PermissionError` raised,
a result returned, or the backend error re-raised after the retries. -/
inductive ExecOutcome where
  | permissionDenied
  | success (result : String)
  | failure (err : String)
deriving DecidableEq, Repr

/-- The observable effect of one `Executor.execute_task` call: the outcome,
the final value of the (mutated in place) task object, the number of backend
attempts made, and the list of back-off sleep durations in order. -/
structure TaskRun where
  outcome : ExecOutcome
  task : Task
  attempts : Nat
  sleeps : List Nat
deriving DecidableEq, Repr

/-- The recursion of `Executor.execute_task` (lines 17-41), with an explicit
fuel argument for structural termination.  Every recursive call strictly
increases `task.retry_count`, which stays below `cfg.max_retries` at the call
site, so from fuel `cfg.max_retries - task.retry_count + 1` (see
`execute_task`) the fuel-exhausted branch is unreachable — this is proved in
`execute_taskF_fuel_irrelevant`. -/
def execute_taskF (cfg : ExecCfg) (backend : Task → Nat → Except String String) :
    Nat → Task → TaskRun
  | 0, t => { outcome := .failure "fuel exhausted", task := t, attempts := 0, sleeps := [] }
  | fuel + 1, t =>
    if t.requires_approval && !t.approved then
      { outcome := .permissionDenied, task := t, attempts := 0, sleeps := [] }
    else
      let t1 := { t with status := TaskStatus.in_progress }
      match backend t1 t1.retry_count with
      | .ok result => { outcome := .success result, task := t1, attempts := 1, sleeps := [] }
      | .error e =>
        let t2 := { t1 with retry_count := t1.retry_count + 1 }
        if t2.retry_count < cfg.max_retries then
          let r2 := execute_taskF cfg backend fuel t2
          { outcome := r2.outcome, task := r2.task, attempts := r2.attempts + 1,
            sleeps := cfg.retry_delay * t2.retry_count :: r2.sleeps }
        else
          { outcome := .failure e, task := t2, attempts := 1, sleeps := [] }

/-- `Executor.execute_task(task, state)`. -/
def execute_task (cfg : ExecCfg) (backend : Task → Nat → Except String String)
    (t : Task) : TaskRun :=
  execute_taskF cfg backend (cfg.max_retries - t.retry_count + 1) t

/-- One record per task selection of the `execute_plan` loop: the selected
task (as selected, before execution), the ids of the completed tasks at that
moment, and the outcome of the `execute_task` call. -/
structure DispatchEvent where
  task : Task
  completed_ids : List String
  outcome : ExecOutcome
  attempts : Nat
  sleeps : List Nat
deriving DecidableEq, Repr

/-- The result of `Executor.execute_plan`: the final session state, the
`results` dict, the `failed_tasks` list, and the chronological trace of task
selections (the execution summary of the source is assembled from the first
three). -/
structure PlanRun where
  state : AgentState
  results : List (String × String)
  failed_tasks : List Task
  trace : List DispatchEvent
deriving DecidableEq, Repr

/-- The `while` loop of `Executor.execute_plan` (lines 80-111), with an
explicit fuel argument for structural termination.  Every iteration that
loops again increments `state.iteration_count`, and the loop guard
`should_continue` requires `iteration_count < max_iterations`, so from fuel
`max_iterations - iteration_count + 1` (see `execute_plan`) the
fuel-exhausted branch is unreachable: whenever fuel reaches zero the guard is
already false and the branch returns exactly what the guard-false branch
returns (proved in `execPlanLoopF_fuel_irrelevant`). -/
def execPlanLoopF (cfg : ExecCfg) (backend : Task → Nat → Except String String) :
    Nat → AgentState → List (String × String) → List Task → PlanRun
  | 0, st, results, failed =>
    { state := st, results := results, failed_tasks := failed, trace := [] }
  | fuel + 1, st, results, failed =>
    if st.current_plan ≠ [] ∧ should_continue st = true then
      match get_next_task st with
      | none =>
        -- no eligible task: mark the remaining Pending tasks Blocked and stop
        let plan2 :=
          if st.current_plan.any (fun t => t.status == TaskStatus.pending) then
            st.current_plan.map
              (fun t => if t.status == TaskStatus.pending then
                          { t with status := TaskStatus.blocked } else t)
          else st.current_plan
        { state := { st with current_plan := plan2 },
          results := results, failed_tasks := failed, trace := [] }
      | some (i, next_task) =>
        let run := execute_task cfg backend next_task
        let ev : DispatchEvent :=
          { task := next_task,
            completed_ids := st.completed_tasks.map (fun u => u.id),
            outcome := run.outcome, attempts := run.attempts, sleeps := run.sleeps }
        match run.outcome with
        | .permissionDenied =>
          -- `except PermissionError: break` — no state was mutated
          { state := st, results := results, failed_tasks := failed, trace := [ev] }
        | .success r =>
          let st1 := { st with current_plan := st.current_plan.set i run.task }
          let st2 := mark_task_complete st1 next_task.id r
          let st3 := { st2 with
                         tool_outputs := dictSet st2.tool_outputs next_task.id r,
                         iteration_count := st2.iteration_count + 1 }
          let rest := execPlanLoopF cfg backend fuel st3
                        (dictSet results next_task.id r) failed
          { rest with trace := ev :: rest.trace }
        | .failure e =>
          let st1 := { st with current_plan := st.current_plan.set i run.task }
          let st2 := mark_task_failed st1 next_task.id e
          -- `failed_tasks.append(next_task)`: the object aliases the plan slot
          let failed2 := failed ++ [st2.current_plan.getD i run.task]
          if next_task.risk_level == RiskLevel.high ||
              next_task.risk_level == RiskLevel.critical then
            { state := { st2 with
                           error := some ("Critical task " ++ next_task.id ++ " failed: " ++ e) },
              results := results, failed_tasks := failed2, trace := [ev] }
          else
            let st3 := { st2 with iteration_count := st2.iteration_count + 1 }
            let rest := execPlanLoopF cfg backend fuel st3 results failed2
            { rest with trace := ev :: rest.trace }
    else
      { state := st, results := results, failed_tasks := failed, trace := [] }

/-- `Executor.execute_plan(state)`. -/
def execute_plan (cfg : ExecCfg) (backend : Task → Nat → Except String String)
    (st : AgentState) : PlanRun :=
  execPlanLoopF cfg backend (st.max_iterations - st.iteration_count + 1) st [] []

/-! ### Orchestrator entry points (`src/agent/orchestrator.py`) -/

/-- `AgentOrchestrator.deny_task(task_id, reason)` (lines 123-130): forward
to the auditor; if the denial succeeded, rebuild `current_plan` without the
denied task. -/
def orch_deny_task (a : Auditor) (st : AgentState) (task_id : String)
    (reason : String) : Auditor × AgentState :=
  let denied := auditor_deny_task a task_id reason
  if denied.1 then
    (denied.2, { st with current_plan := st.current_plan.filter (fun t => !(t.id == task_id)) })
  else (denied.2, st)

/-- `AgentOrchestrator.continue_execution()` (lines 132-144): if no task in
the plan is approved or approval-free, return without executing (`none`
models the "No approved tasks to execute." reply); otherwise run the
executor on the current state. -/
def continue_execution (cfg : ExecCfg) (backend : Task → Nat → Except String String)
    (st : AgentState) : Option PlanRun :=
  let approved_tasks := st.current_plan.filter (fun t => t.approved || !t.requires_approval)
  if approved_tasks.isEmpty then none
  else some (execute_plan cfg backend st)

/-! ### Derived notions used by the statements below -/

/-- Whether one loop iteration of `execute_plan` reaches the
`state.iteration_count += 1` line: it does for a successful task and for a
failed task of risk below High, but the `break` on a failed High/Critical
task skips it, and so does the `break` on a `PermissionError`. -/
def countsIteration (e : DispatchEvent) : Bool :=
  match e.outcome with
  | .success _ => true
  | .failure _ =>
    !(e.task.risk_level == RiskLevel.high || e.task.risk_level == RiskLevel.critical)
  | .permissionDenied => false

/-- The plan/completed-list invariant of claim C10: the ids in the active
plan are distinct, and no id occurs both in the active plan and in the
completed list.  (Task ids are unique within a plan by the data model.) -/
def Inv (st : AgentState) : Prop :=
  (st.current_plan.map Task.id).Nodup ∧
  ∀ x ∈ st.current_plan.map Task.id, x ∉ st.completed_tasks.map Task.id

/-- `Inv` is decidable, so witnesses can evaluate it on concrete states. -/
instance (st : AgentState) : Decidable (Inv st) := by
  unfold Inv
  infer_instance

/-- A fresh session state holding a one-task plan, as
`AgentOrchestrator.__init__` builds it (zero iterations, no error). -/
def singleTaskState (t : Task) (M : Nat) : AgentState :=
  { current_plan := [t], completed_tasks := [], tool_outputs := [],
    iteration_count := 0, max_iterations := M, is_complete := false, error := none }

/-! ### Concrete inputs used by counterexamples and witnesses -/

/-- A task whose nominal risk level is Critical and whose tool carries the
Medium floor (`web_search`). -/
def c1Task : Task :=
  { id := "t1", description := "look something up", tool := "web_search",
    risk_level := RiskLevel.critical }

/-- A task the auditor does not special-case (`file_read`), nominal Low. -/
def c9TaskLow : Task :=
  { id := "t9", description := "read a file", tool := "file_read",
    risk_level := RiskLevel.low }

/-- Same tool and tool_input as `c9TaskLow`, nominal Critical. -/
def c9TaskCritical : Task :=
  { c9TaskLow with risk_level := RiskLevel.critical }

/-- Same tool, tool_input and nominal risk level as `c9TaskLow`, but a
different description. -/
def c9TaskLowCopy : Task :=
  { c9TaskLow with description := "read a file again" }

/-- The task used by the approval-ledger scenarios. -/
def c8Task : Task :=
  { id := "t8", description := "run a script", tool := "bash_command",
    tool_input := { command := some "rm -rf /tmp/x" }, risk_level := RiskLevel.low }

/-- An auditor with an empty ledger and the default High threshold. -/
def emptyAuditor : Auditor :=
  { pending_approvals := [], audit_history := [], approval_threshold := RiskLevel.high }

/-- A backend that always fails. -/
def failingBackend : Task → Nat → Except String String :=
  fun _ _ => Except.error "boom"

/-- A backend that always succeeds, echoing the task id. -/
def okBackend : Task → Nat → Except String String :=
  fun t _ => Except.ok ("result of " ++ t.id)

/-- A plain low-risk task with no dependencies. -/
def taskA : Task := { id := "A", description := "first", tool := "document_search" }

/-- A task depending on `taskA`. -/
def taskB : Task :=
  { id := "B", description := "second", tool := "document_search", dependencies := ["A"] }

/-- A task that requires approval and is not approved. -/
def taskP : Task :=
  { id := "P", description := "guarded", tool := "bash_command",
    tool_input := { command := some "rm -rf /" }, risk_level := RiskLevel.critical,
    requires_approval := true, approved := false }

/-- A high-risk task (used for the failing-task iteration counterexample). -/
def taskH : Task :=
  { id := "H", description := "risky", tool := "web_search", risk_level := RiskLevel.high }

/-- A placeholder event for positional lookups in witnesses. -/
def defaultEvent : DispatchEvent :=
  { task := taskA, completed_ids := [], outcome := ExecOutcome.permissionDenied,
    attempts := 0, sleeps := [] }

/-- A two-task plan listing the dependent task first. -/
def c3State : AgentState :=
  { current_plan := [taskB, taskA], completed_tasks := [] }

/-- A resolved-pending ledger entry for `taskB`. -/
def c4Log : AuditLog :=
  { task_id := "B", task_description := "second", tool := "document_search",
    risk_level := RiskLevel.low, user_id := "u" }

/-- An auditor with one pending approval, for `taskB`. -/
def c4Auditor : Auditor :=
  { pending_approvals := [("B", c4Log)], audit_history := [],
    approval_threshold := RiskLevel.high }

/-- The run-level invariants of `execute_plan`, relative to the state the
loop was entered with: (1) every selected task had all its dependencies among
the completed ids recorded at selection time; (2) the iteration counter grows
by exactly the number of trace events that reach the `iteration_count += 1`
line; (3) every selected task's id comes from the entering plan; (4) the
final completed ids come from the entering completed list or the entering
plan; (5) a selected task that requires approval and is unapproved ends the
trace with a `PermissionError`, is left Pending, and is still in the final
plan. -/
def RunSpec (st : AgentState) (r : PlanRun) : Prop :=
  (∀ e ∈ r.trace, ∀ d ∈ e.task.dependencies, d ∈ e.completed_ids) ∧
  (r.state.iteration_count = st.iteration_count + r.trace.countP countsIteration) ∧
  (∀ e ∈ r.trace, e.task.id ∈ st.current_plan.map Task.id) ∧
  (∀ x ∈ r.state.completed_tasks.map Task.id,
     x ∈ st.completed_tasks.map Task.id ∨ x ∈ st.current_plan.map Task.id) ∧
  (∀ e ∈ r.trace, e.task.requires_approval = true → e.task.approved = false →
     r.trace.getLast? = some e ∧ e.outcome = ExecOutcome.permissionDenied ∧
     e.task.status = TaskStatus.pending ∧ e.task ∈ r.state.current_plan)

/-! ## Claims C1 and C2: the escalation order is broken by string comparison

`Auditor.assess_task_risk` escalates with Python `max` on a `str`-valued
enum, which orders the levels lexicographically as
critical < high < low < medium.  A Critical `web_search` task is therefore
*lowered* to Medium, and `requires_approval` (which compares with the correct
numeric order) then fails to flag it at the High or Critical threshold.  The
repository's own test `test_risk_assessment_high` (a Medium `code_execution`
task must assess to High or Critical) fails on this code for the same
reason. -/

/-- C1: counter-evidence for "escalation only ever raises, never lowers, the
assigned level": the Critical `web_search` task `c1Task` is assessed at
Medium, strictly below its nominal level in the order Low<Medium<High<Critical. -/
theorem c1_assess_lowers_critical_web_search :
    (assess_task_risk c1Task).1 = RiskLevel.medium ∧
    risk_order (assess_task_risk c1Task).1 < risk_order c1Task.risk_level := by
  decide

/-- C2: counter-evidence for "a task with `risk_level=Critical` requires
approval at threshold High and at threshold Critical": for the Critical task
`c1Task`, `requires_approval` returns `false` at both thresholds. -/
theorem c2_critical_task_not_flagged :
    c1Task.risk_level = RiskLevel.critical ∧
    requires_approval RiskLevel.high c1Task = false ∧
    requires_approval RiskLevel.critical c1Task = false := by
  decide

/-! ## Claim C9: assessment determinism -/

/-- C9 counterexample: `assess_task_risk` is *not* a function of the task's
tool and tool_input alone — `c9TaskLow` and `c9TaskCritical` agree on both
yet are assessed differently, because the assessment starts from the task's
nominal `risk_level`. -/
theorem c9_assess_depends_on_nominal_level :
    c9TaskLow.tool = c9TaskCritical.tool ∧
    c9TaskLow.tool_input = c9TaskCritical.tool_input ∧
    assess_task_risk c9TaskLow ≠ assess_task_risk c9TaskCritical := by
  decide

/-- C9 (amended): `assess_task_risk` is a deterministic (and, being a pure
function of the task, side-effect-free) function of the task's tool, its
tool_input contents and its nominal risk level: any two tasks agreeing on
those three fields receive the same assessed level and factors. -/
theorem c9_assess_deterministic (t₁ t₂ : Task) (h1 : t₁.tool = t₂.tool)
    (h2 : t₁.tool_input = t₂.tool_input) (h3 : t₁.risk_level = t₂.risk_level) :
    assess_task_risk t₁ = assess_task_risk t₂ := by
  unfold assess_task_risk
  rw [h1, h2, h3]

/-- Witness for `c9_assess_deterministic` at two concrete tasks differing
only in their description. -/
theorem c9_assess_deterministic_witness :
    c9TaskLow.tool = c9TaskLowCopy.tool ∧
    assess_task_risk c9TaskLow = assess_task_risk c9TaskLowCopy :=
  ⟨rfl, c9_assess_deterministic c9TaskLow c9TaskLowCopy rfl rfl rfl⟩

/-! ## Claim C8: at most one pending approval per task id

`Auditor.request_approval` stores the new entry with a plain dict assignment
`self.pending_approvals[task.id] = audit_log`.  There is no existence check,
so a second request for the same id does *not* fail: it succeeds and
replaces the stored entry.  The dict is keyed by task id, so at most one
open request per id still holds. -/

/-- C8 counterexample: requesting approval twice for the same task id does
not fail — the second call completes and *replaces* the pending entry (here
the stored `user_id` changes from "alice" to "bob"), instead of failing and
leaving the ledger untouched. -/
theorem c8_second_request_does_not_fail :
    ((request_approval (request_approval emptyAuditor c8Task "alice").2 c8Task "bob").2).pending_approvals.length = 1 ∧
    ((request_approval (request_approval emptyAuditor c8Task "alice").2 c8Task "bob").2).pending_approvals ≠
      ((request_approval emptyAuditor c8Task "alice").2).pending_approvals := by
  decide

/-- Replacing the value of key `k` in place does not change how many entries
carry key `k`. -/
theorem countP_map_replace {β : Type} (m : List (String × β)) (k : String) (v : β) :
    (m.map (fun kv => if kv.1 == k then (k, v) else kv)).countP (fun kv => kv.1 == k) =
      m.countP (fun kv => kv.1 == k) := by
  induction m with
  | nil => rfl
  | cons kv rest ih =>
    simp only [List.map_cons, List.countP_cons, ih]
    by_cases h : (kv.1 == k) = true
    · simp [h]
    · simp [h]

/-- `dictSet` key count: unchanged when the key is present, one more when
absent. -/
theorem countP_dictSet_key {β : Type} (m : List (String × β)) (k : String) (v : β) :
    (dictSet m k v).countP (fun kv => kv.1 == k) =
      if m.any (fun kv => kv.1 == k) then m.countP (fun kv => kv.1 == k)
      else m.countP (fun kv => kv.1 == k) + 1 := by
  unfold dictSet
  by_cases h : m.any (fun kv => kv.1 == k) = true
  · rw [if_pos h, if_pos h]
    exact countP_map_replace m k v
  · rw [if_neg h, if_neg h]
    simp [List.countP_append, List.countP_cons]

/-- `dictSet` on a present key keeps the dict's size. -/
theorem length_dictSet_mem {β : Type} (m : List (String × β)) (k : String) (v : β)
    (h : m.any (fun kv => kv.1 == k) = true) :
    (dictSet m k v).length = m.length := by
  simp [dictSet, h]

/-- A positive key count means `any` finds the key. -/
theorem any_of_countP_pos {β : Type} (m : List (String × β)) (k : String)
    (h : 0 < m.countP (fun kv => kv.1 == k)) :
    m.any (fun kv => kv.1 == k) = true := by
  rw [List.countP_pos_iff] at h
  rw [List.any_eq_true]
  exact h

/-- C8 (amended): `request_approval` never fails; it creates the pending
entry, overwriting any existing one for that task id.  Because the ledger is
keyed by task id, after one or two requests exactly one entry for the id is
pending, and the second request does not grow the ledger. -/
theorem c8_at_most_one_pending (a : Auditor) (t : Task) (u₁ u₂ : String)
    (h : a.pending_approvals.countP (fun kv => kv.1 == t.id) ≤ 1) :
    ((request_approval a t u₁).2).pending_approvals.countP (fun kv => kv.1 == t.id) = 1 ∧
    ((request_approval (request_approval a t u₁).2 t u₂).2).pending_approvals.countP
        (fun kv => kv.1 == t.id) = 1 ∧
    ((request_approval (request_approval a t u₁).2 t u₂).2).pending_approvals.length =
      ((request_approval a t u₁).2).pending_approvals.length := by
  unfold request_approval
  have h1 : (dictSet a.pending_approvals t.id
      { task_id := t.id, task_description := t.description, tool := t.tool,
        risk_level := (assess_task_risk t).1, user_id := u₁ }).countP
      (fun kv => kv.1 == t.id) = 1 := by
    rw [countP_dictSet_key]
    by_cases hany : a.pending_approvals.any (fun kv => kv.1 == t.id) = true
    · have : 0 < a.pending_approvals.countP (fun kv => kv.1 == t.id) := by
        rw [List.countP_pos_iff]
        rw [List.any_eq_true] at hany
        exact hany
      simp [hany]
      omega
    · have : a.pending_approvals.countP (fun kv => kv.1 == t.id) = 0 := by
        by_contra hne
        exact hany (any_of_countP_pos _ _ (Nat.pos_of_ne_zero hne))
      simp [hany, this]
  refine ⟨h1, ?_, ?_⟩
  · rw [countP_dictSet_key]
    rw [if_pos (any_of_countP_pos _ _ (by rw [h1]; omega))]
    exact h1
  · exact length_dictSet_mem _ _ _ (any_of_countP_pos _ _ (by rw [h1]; omega))

/-- Witness for `c8_at_most_one_pending` on the empty ledger. -/
theorem c8_at_most_one_pending_witness :
    emptyAuditor.pending_approvals.countP (fun kv => kv.1 == c8Task.id) ≤ 1 ∧
    ((request_approval (request_approval emptyAuditor c8Task "alice").2 c8Task "bob").2).pending_approvals.countP
        (fun kv => kv.1 == c8Task.id) = 1 :=
  ⟨by decide, (c8_at_most_one_pending emptyAuditor c8Task "alice" "bob" (by decide)).2.1⟩

/-! ## Basic facts about `execute_task` -/

/-- `execute_task` never changes the id of the task object it mutates. -/
theorem execute_taskF_task_id (cfg : ExecCfg) (backend : Task → Nat → Except String String) :
    ∀ fuel t, (execute_taskF cfg backend fuel t).task.id = t.id := by
  intro fuel
  induction fuel with
  | zero => intro t; rfl
  | succ f ih =>
    intro t
    simp only [execute_taskF]
    by_cases happ : (t.requires_approval && !t.approved) = true
    · rw [if_pos happ]
    · rw [if_neg happ]
      cases hb : backend { t with status := TaskStatus.in_progress } t.retry_count with
      | ok r => simp only [hb]
      | error e =>
        simp only [hb]
        by_cases hlt : t.retry_count + 1 < cfg.max_retries
        · rw [if_pos hlt]
          exact ih _
        · rw [if_neg hlt]

/-- If the selected task requires approval and is not approved,
`execute_task` raises `PermissionError` before mutating anything. -/
theorem execute_task_perm (cfg : ExecCfg) (backend : Task → Nat → Except String String)
    (t : Task) (h : (t.requires_approval && !t.approved) = true) :
    execute_task cfg backend t =
      { outcome := .permissionDenied, task := t, attempts := 0, sleeps := [] } := by
  unfold execute_task
  simp only [execute_taskF]
  rw [if_pos h]

/-- The fuel argument of `execute_taskF` is irrelevant as long as it exceeds
`max_retries - retry_count`: the fuel-exhausted branch is unreachable from
the fuel chosen by `execute_task`. -/
theorem execute_taskF_fuel_irrelevant (cfg : ExecCfg)
    (backend : Task → Nat → Except String String) :
    ∀ f₁ f₂ t, cfg.max_retries - t.retry_count < f₁ →
      cfg.max_retries - t.retry_count < f₂ →
      execute_taskF cfg backend f₁ t = execute_taskF cfg backend f₂ t := by
  intro f₁
  induction f₁ with
  | zero => intro f₂ t h1 h2; omega
  | succ f ih =>
    intro f₂ t h1 h2
    cases f₂ with
    | zero => omega
    | succ g =>
      simp only [execute_taskF]
      by_cases happ : (t.requires_approval && !t.approved) = true
      · rw [if_pos happ, if_pos happ]
      · rw [if_neg happ, if_neg happ]
        cases hb : backend { t with status := TaskStatus.in_progress } t.retry_count with
        | ok r => simp only [hb]
        | error e =>
          simp only [hb]
          by_cases hlt : t.retry_count + 1 < cfg.max_retries
          · rw [if_pos hlt, if_pos hlt]
            rw [ih g { t with status := TaskStatus.in_progress, retry_count := t.retry_count + 1 } (show cfg.max_retries - (t.retry_count + 1) < f by omega) (show cfg.max_retries - (t.retry_count + 1) < g by omega)]
          · rw [if_neg hlt, if_neg hlt]

/-- Behaviour of `execute_task`'s retry recursion under a backend that fails
on every attempt: starting from `retry_count = r < max_retries` it makes
exactly `max_retries - r` attempts, leaves the task In-Progress with
`retry_count = max_retries`, re-raises the last error, and sleeps
`retry_delay * (r+1), …, retry_delay * (max_retries-1)` between attempts. -/
theorem execute_taskF_allfail (cfg : ExecCfg)
    (backend : Task → Nat → Except String String)
    (hfail : ∀ u n, ∃ e, backend u n = Except.error e) :
    ∀ fuel t, (t.requires_approval && !t.approved) = false →
      t.retry_count < cfg.max_retries →
      cfg.max_retries - t.retry_count ≤ fuel →
      ∃ e, execute_taskF cfg backend fuel t =
        { outcome := .failure e,
          task := { t with status := TaskStatus.in_progress, retry_count := cfg.max_retries },
          attempts := cfg.max_retries - t.retry_count,
          sleeps := (List.range (cfg.max_retries - t.retry_count - 1)).map
                      (fun k => cfg.retry_delay * (t.retry_count + 1 + k)) } := by
  intro fuel
  induction fuel with
  | zero => intro t h1 h2 h3; omega
  | succ f ih =>
    intro t h1 h2 h3
    obtain ⟨e, he⟩ := hfail { t with status := TaskStatus.in_progress } t.retry_count
    by_cases hlt : t.retry_count + 1 < cfg.max_retries
    · obtain ⟨e2, he2⟩ := ih { t with status := TaskStatus.in_progress, retry_count := t.retry_count + 1 } h1 hlt (show cfg.max_retries - (t.retry_count + 1) ≤ f by omega)
      refine ⟨e2, ?_⟩
      have hsleeps :
          cfg.retry_delay * (t.retry_count + 1) ::
            (List.range (cfg.max_retries - (t.retry_count + 1) - 1)).map
              (fun k => cfg.retry_delay * (t.retry_count + 1 + 1 + k)) =
          (List.range (cfg.max_retries - t.retry_count - 1)).map
            (fun k => cfg.retry_delay * (t.retry_count + 1 + k)) := by
        have hr : cfg.max_retries - t.retry_count - 1 =
            (cfg.max_retries - (t.retry_count + 1) - 1) + 1 := by omega
        rw [hr, List.range_succ_eq_map, List.map_cons, List.map_map]
        refine congrArg₂ List.cons (by simp) ?_
        refine List.map_congr_left (fun k hk => ?_)
        simp only [Function.comp, Nat.succ_eq_add_one]
        ring
      simp only [execute_taskF]
      rw [if_neg (by simp [h1])]
      simp only [he]
      split
      · rw [he2]
        congr 1
        show cfg.max_retries - (t.retry_count + 1) + 1 = cfg.max_retries - t.retry_count
        omega
      · next h => exact absurd hlt h
    · have heq : t.retry_count + 1 = cfg.max_retries := by omega
      refine ⟨e, ?_⟩
      simp only [execute_taskF]
      rw [if_neg (by simp [h1])]
      simp only [he]
      split
      · next h => exact absurd h hlt
      · have h0 : cfg.max_retries - t.retry_count = 1 := by omega
        rw [h0]
        simp [heq]

/-! ## List-level helpers for the plan loop -/

/-- Specification of the `get_next_task` scan: a returned task is Pending,
has its dependencies among the completed ids, and sits at the reported
position of the plan. -/
theorem get_next_go_spec (completed_ids : List String) :
    ∀ l j i t, get_next_go completed_ids l j = some (i, t) →
      t.status = TaskStatus.pending ∧
      (∀ d ∈ t.dependencies, d ∈ completed_ids) ∧
      j ≤ i ∧ l.get? (i - j) = some t := by
  intro l
  induction l with
  | nil => intro j i t h; exact absurd h (by simp [get_next_go])
  | cons u rest ih =>
    intro j i t h
    simp only [get_next_go] at h
    by_cases hc : (u.status == TaskStatus.pending &&
        u.dependencies.all (fun dep_id => completed_ids.contains dep_id)) = true
    · rw [if_pos hc] at h
      simp only [Option.some.injEq, Prod.mk.injEq] at h
      obtain ⟨hi, ht⟩ := h
      subst hi
      subst ht
      rw [Bool.and_eq_true] at hc
      refine ⟨by simpa using hc.1, ?_, Nat.le_refl j, by simp⟩
      intro d hd
      have := (List.all_eq_true.mp hc.2) d hd
      simpa using this
    · rw [if_neg hc] at h
      obtain ⟨hs, hd, hj, hg⟩ := ih (j + 1) i t h
      refine ⟨hs, hd, by omega, ?_⟩
      have hij : i - j = (i - (j + 1)) + 1 := by omega
      rw [hij]
      simpa using hg
/-- `completeSplit` only removes from the plan. -/
theorem completeSplit_fst_sublist (task_id result : String) :
    ∀ l, List.Sublist (completeSplit task_id result l).1 l := by
  intro l
  induction l with
  | nil => simp [completeSplit]
  | cons u rest ih =>
    simp only [completeSplit]
    by_cases h : (u.id == task_id) = true
    · rw [if_pos h]
      exact List.sublist_cons_self u rest
    · rw [if_neg h]
      exact List.Sublist.cons₂ u ih

/-- A task moved out by `completeSplit` has the searched id, carries status
Completed, and its id comes from the scanned plan. -/
theorem completeSplit_snd_spec (task_id result : String) :
    ∀ l, ∀ u ∈ (completeSplit task_id result l).2,
      u.id ∈ l.map Task.id ∧ u.id = task_id ∧ u.status = TaskStatus.completed := by
  intro l
  induction l with
  | nil => simp [completeSplit]
  | cons v rest ih =>
    intro u hu
    simp only [completeSplit] at hu
    by_cases h : (v.id == task_id) = true
    · rw [if_pos h] at hu
      simp only [List.mem_singleton] at hu
      subst hu
      exact ⟨by simp, by simpa using h, rfl⟩
    · rw [if_neg h] at hu
      obtain ⟨h1, h2, h3⟩ := ih u hu
      exact ⟨by simp [h1], h2, h3⟩

/-- With distinct plan ids, the task moved out by `completeSplit` no longer
shares its id with anything left in the plan. -/
theorem completeSplit_not_mem (task_id result : String) :
    ∀ l, (l.map Task.id).Nodup →
      ∀ u ∈ (completeSplit task_id result l).2,
        ∀ v ∈ (completeSplit task_id result l).1, v.id ≠ u.id := by
  intro l
  induction l with
  | nil => simp [completeSplit]
  | cons w rest ih =>
    intro hnd u hu v hv
    simp only [List.map_cons, List.nodup_cons] at hnd
    simp only [completeSplit] at hu hv
    by_cases h : (w.id == task_id) = true
    · rw [if_pos h] at hu hv
      simp only [List.mem_singleton] at hu
      subst hu
      intro hvu
      exact hnd.1 (by simpa [hvu] using List.mem_map_of_mem Task.id hv)
    · rw [if_neg h] at hu hv
      rcases List.mem_cons.mp hv with hvw | hv2
      · subst hvw
        obtain ⟨hmem, _, _⟩ := completeSplit_snd_spec task_id result rest u hu
        intro hvu
        exact hnd.1 (hvu ▸ hmem)
      · exact ih hnd.2 u hu v hv2

/-- `failFirst` keeps the plan's ids unchanged. -/
theorem failFirst_map_id (task_id error : String) :
    ∀ l, (failFirst task_id error l).map Task.id = l.map Task.id := by
  intro l
  induction l with
  | nil => rfl
  | cons u rest ih =>
    simp only [failFirst]
    by_cases h : (u.id == task_id) = true
    · rw [if_pos h]
      simp
    · rw [if_neg h]
      simp [ih]

/-- Writing back a task with an unchanged id keeps the plan's ids. -/
theorem set_map_id : ∀ (l : List Task) (i : Nat) (x t : Task),
    l.get? i = some t → x.id = t.id → (l.set i x).map Task.id = l.map Task.id := by
  intro l
  induction l with
  | nil => intro i x t h; simp at h
  | cons u rest ih =>
    intro i x t h hx
    cases i with
    | zero =>
      simp only [List.get?] at h
      injection h with h
      subst h
      simp [List.set, hx]
    | succ n =>
      simp only [List.get?] at h
      simp [List.set, ih n x t h hx]

/-- Appending in front keeps the last element of a nonempty list. -/
theorem getLast?_cons_eq {α : Type} (a : α) {l : List α} {e : α}
    (h : l.getLast? = some e) : (a :: l).getLast? = some e := by
  cases l with
  | nil => simp at h
  | cons b m =>
    rw [List.getLast?_cons_cons]
    exact h

/-- `execute_task` never changes the task id (wrapper form). -/
theorem execute_task_task_id (cfg : ExecCfg) (backend : Task → Nat → Except String String)
    (t : Task) : (execute_task cfg backend t).task.id = t.id :=
  execute_taskF_task_id cfg backend _ t

/-! ## Assembling `RunSpec` step by step -/

/-- A run that stops immediately (guard false, fuel out, or all remaining
tasks blocked) satisfies `RunSpec` provided it kept the iteration counter and
the completed list. -/
theorem runspec_stop (st stF : AgentState) (res : List (String × String))
    (fl : List Task) (hit : stF.iteration_count = st.iteration_count)
    (hcomp : stF.completed_tasks = st.completed_tasks) :
    RunSpec st { state := stF, results := res, failed_tasks := fl, trace := [] } := by
  refine ⟨?_, ?_, ?_, ?_, ?_⟩
  · intro e he; exact absurd he (List.not_mem_nil e)
  · simpa using hit
  · intro e he; exact absurd he (List.not_mem_nil e)
  · intro x hx
    rw [hcomp] at hx
    exact Or.inl hx
  · intro e he; exact absurd he (List.not_mem_nil e)

/-- A run that breaks after its single selection satisfies `RunSpec`. -/
theorem runspec_single (st stF : AgentState) (res : List (String × String))
    (fl : List Task) (ev : DispatchEvent)
    (hdeps : ∀ d ∈ ev.task.dependencies, d ∈ ev.completed_ids)
    (hid : ev.task.id ∈ st.current_plan.map Task.id)
    (hcnt : countsIteration ev = false)
    (hit : stF.iteration_count = st.iteration_count)
    (hcomp : ∀ x ∈ stF.completed_tasks.map Task.id,
      x ∈ st.completed_tasks.map Task.id ∨ x ∈ st.current_plan.map Task.id)
    (hperm : ev.task.requires_approval = true → ev.task.approved = false →
      ev.outcome = ExecOutcome.permissionDenied ∧
      ev.task.status = TaskStatus.pending ∧ ev.task ∈ stF.current_plan) :
    RunSpec st { state := stF, results := res, failed_tasks := fl, trace := [ev] } := by
  refine ⟨?_, ?_, ?_, ?_, ?_⟩
  · intro e he
    rw [List.mem_singleton] at he
    subst he
    exact hdeps
  · simp [List.countP_cons, hcnt, hit]
  · intro e he
    rw [List.mem_singleton] at he
    subst he
    exact hid
  · exact hcomp
  · intro e he h1 h2
    rw [List.mem_singleton] at he
    subst he
    obtain ⟨ho, hs, hm⟩ := hperm h1 h2
    exact ⟨rfl, ho, hs, hm⟩

/-- A run that loops again satisfies `RunSpec` when the recursive run does
relative to the successor state and the successor state relates back to the
entering state. -/
theorem runspec_extend (st st3 : AgentState) (r : PlanRun) (ev : DispatchEvent)
    (res : List (String × String)) (fl : List Task)
    (hIH : RunSpec st3 r)
    (hdeps : ∀ d ∈ ev.task.dependencies, d ∈ ev.completed_ids)
    (hid : ev.task.id ∈ st.current_plan.map Task.id)
    (hcount : st3.iteration_count =
      st.iteration_count + (if countsIteration ev then 1 else 0))
    (hplan : ∀ x ∈ st3.current_plan.map Task.id, x ∈ st.current_plan.map Task.id)
    (hcomp : ∀ x ∈ st3.completed_tasks.map Task.id,
      x ∈ st.completed_tasks.map Task.id ∨ x ∈ st.current_plan.map Task.id)
    (hperm : ¬(ev.task.requires_approval = true ∧ ev.task.approved = false)) :
    RunSpec st { state := r.state, results := res, failed_tasks := fl,
                 trace := ev :: r.trace } := by
  obtain ⟨hA, hB, hC, hD, hE⟩ := hIH
  refine ⟨?_, ?_, ?_, ?_, ?_⟩
  · intro e he
    rcases List.mem_cons.mp he with he | he
    · subst he; exact hdeps
    · exact hA e he
  · show r.state.iteration_count = st.iteration_count + (ev :: r.trace).countP countsIteration
    rw [List.countP_cons, hB, hcount]
    by_cases hc : countsIteration ev = true
    · simp [hc]; omega
    · rw [Bool.not_eq_true] at hc
      simp [hc]
  · intro e he
    rcases List.mem_cons.mp he with he | he
    · subst he; exact hid
    · exact hplan _ (hC e he)
  · intro x hx
    rcases hD x hx with h | h
    · exact hcomp x h
    · exact Or.inr (hplan x h)
  · intro e he h1 h2
    rcases List.mem_cons.mp he with he | he
    · subst he; exact absurd ⟨h1, h2⟩ hperm
    · obtain ⟨hl, ho, hs, hm⟩ := hE e he h1 h2
      exact ⟨getLast?_cons_eq ev hl, ho, hs, hm⟩

/-- The main loop invariant: every `execPlanLoopF` run satisfies `RunSpec`
relative to its entering state. -/
theorem execPlanLoopF_spec (cfg : ExecCfg) (backend : Task → Nat → Except String String) :
    ∀ fuel st results failed, RunSpec st (execPlanLoopF cfg backend fuel st results failed) := by
  intro fuel
  induction fuel with
  | zero =>
    intro st res fl
    exact runspec_stop st st res fl rfl rfl
  | succ f ih =>
    intro st res fl
    simp only [execPlanLoopF]
    by_cases hguard : (st.current_plan ≠ [] ∧ should_continue st = true)
    · rw [if_pos hguard]
      cases hn : get_next_task st with
      | none =>
        simp only []
        exact runspec_stop st _ res fl rfl rfl
      | some it =>
        obtain ⟨i, t⟩ := it
        obtain ⟨hst, hdeps, _, hget⟩ :=
          get_next_go_spec (st.completed_tasks.map (fun u => u.id)) st.current_plan 0 i t
            (by simpa [get_next_task] using hn)
        rw [Nat.sub_zero] at hget
        have hmem : t ∈ st.current_plan := List.get?_mem hget
        have hidmem : t.id ∈ st.current_plan.map Task.id := List.mem_map_of_mem Task.id hmem
        have hrunid : (execute_task cfg backend t).task.id = t.id :=
          execute_task_task_id cfg backend t
        cases ho : (execute_task cfg backend t).outcome with
        | permissionDenied =>
          simp only [ho]
          refine runspec_single st st res fl _ ?_ ?_ ?_ rfl ?_ ?_
          · simpa using hdeps
          · simpa using hidmem
          · simp [countsIteration]
          · intro x hx; exact Or.inl hx
          · intro h1 h2
            exact ⟨rfl, hst, hmem⟩
        | success r0 =>
          simp only [ho]
          have hperm : ¬(t.requires_approval = true ∧ t.approved = false) := by
            rintro ⟨h1, h2⟩
            have := execute_task_perm cfg backend t (by simp [h1, h2])
            rw [this] at ho
            simp at ho
          refine runspec_extend st _ _ _ _ _ (ih _ _ _) ?_ ?_ ?_ ?_ ?_ ?_
          · simpa using hdeps
          · simpa using hidmem
          · simp [mark_task_complete, countsIteration]
          · intro x hx
            simp only [mark_task_complete] at hx
            have hx2 : x ∈ ((st.current_plan.set i (execute_task cfg backend t).task).map Task.id) :=
              ((completeSplit_fst_sublist t.id r0 _).map Task.id).subset hx
            rwa [set_map_id _ _ _ _ hget hrunid] at hx2
          · intro x hx
            simp only [mark_task_complete, List.map_append, List.mem_append] at hx
            rcases hx with hx | hx
            · exact Or.inl hx
            · right
              rw [List.mem_map] at hx
              obtain ⟨u, hu, hux⟩ := hx
              obtain ⟨humem, _, _⟩ := completeSplit_snd_spec t.id r0 _ u hu
              rw [set_map_id _ _ _ _ hget hrunid] at humem
              exact hux ▸ humem
          · simpa using hperm
        | failure e0 =>
          simp only [ho]
          have hperm : ¬(t.requires_approval = true ∧ t.approved = false) := by
            rintro ⟨h1, h2⟩
            have := execute_task_perm cfg backend t (by simp [h1, h2])
            rw [this] at ho
            simp at ho
          by_cases hrisk : (t.risk_level == RiskLevel.high ||
              t.risk_level == RiskLevel.critical) = true
          · rw [if_pos hrisk]
            refine runspec_single st _ res _ _ ?_ ?_ ?_ ?_ ?_ ?_
            · simpa using hdeps
            · simpa using hidmem
            · simp [countsIteration, hrisk]
            · simp [mark_task_failed]
            · intro x hx
              simp only [mark_task_failed] at hx
              exact Or.inl hx
            · intro h1 h2
              exact absurd ⟨h1, h2⟩ hperm
          · rw [if_neg hrisk]
            rw [Bool.not_eq_true] at hrisk
            refine runspec_extend st _ _ _ _ _ (ih _ _ _) ?_ ?_ ?_ ?_ ?_ ?_
            · simpa using hdeps
            · simpa using hidmem
            · simp [mark_task_failed, countsIteration, hrisk]
            · intro x hx
              simp only [mark_task_failed] at hx
              rw [failFirst_map_id] at hx
              rwa [set_map_id _ _ _ _ hget hrunid] at hx
            · intro x hx
              simp only [mark_task_failed] at hx
              exact Or.inl hx
            · simpa using hperm
    · rw [if_neg hguard]
      exact runspec_stop st st res fl rfl rfl

/-! ## Claim C3: dependency order -/

/-- C3: the Executor's run loop never dispatches a task before every id in
its `dependencies` is among the completed ids — each trace event's task has
all its dependencies inside the completed-id snapshot taken at selection
time. -/
theorem c3_executor_respects_dependencies (cfg : ExecCfg)
    (backend : Task → Nat → Except String String) (st : AgentState) :
    ∀ e ∈ (execute_plan cfg backend st).trace,
      ∀ d ∈ e.task.dependencies, d ∈ e.completed_ids :=
  (execPlanLoopF_spec cfg backend _ st [] []).1

/-- Witness for `c3_executor_respects_dependencies`: in the plan
`[B (deps [A]), A]` the second dispatch is `B`, and its dependency `A` is in
the completed snapshot. -/
theorem c3_witness :
    ((execute_plan ⟨3, 2⟩ okBackend c3State).trace.getD 1 defaultEvent) ∈
        (execute_plan ⟨3, 2⟩ okBackend c3State).trace ∧
    "A" ∈ ((execute_plan ⟨3, 2⟩ okBackend c3State).trace.getD 1 defaultEvent).task.dependencies ∧
    "A" ∈ ((execute_plan ⟨3, 2⟩ okBackend c3State).trace.getD 1 defaultEvent).completed_ids :=
  ⟨by decide, by decide,
    c3_executor_respects_dependencies ⟨3, 2⟩ okBackend c3State _ (by decide) "A" (by decide)⟩

/-! ## Claim C5: an unapproved task halts the whole run -/

/-- C5: when the loop selects a task that requires approval and is not yet
approved, that selection is the last event of the run (nothing further is
dispatched), its outcome is the `PermissionError` break, the task is not
marked Failed — it keeps status Pending — and it is still in the final plan,
eligible again after approval. -/
theorem c5_unapproved_task_halts_run (cfg : ExecCfg)
    (backend : Task → Nat → Except String String) (st : AgentState) :
    ∀ e ∈ (execute_plan cfg backend st).trace,
      e.task.requires_approval = true → e.task.approved = false →
      (execute_plan cfg backend st).trace.getLast? = some e ∧
      e.outcome = ExecOutcome.permissionDenied ∧
      e.task.status = TaskStatus.pending ∧
      e.task ∈ (execute_plan cfg backend st).state.current_plan :=
  (execPlanLoopF_spec cfg backend _ st [] []).2.2.2.2

/-- Witness for `c5_unapproved_task_halts_run` on a one-task plan whose task
requires approval. -/
theorem c5_witness :
    ((execute_plan ⟨3, 2⟩ okBackend (singleTaskState taskP 10)).trace.getD 0 defaultEvent) ∈
        (execute_plan ⟨3, 2⟩ okBackend (singleTaskState taskP 10)).trace ∧
    (execute_plan ⟨3, 2⟩ okBackend (singleTaskState taskP 10)).trace.getLast? =
        some ((execute_plan ⟨3, 2⟩ okBackend (singleTaskState taskP 10)).trace.getD 0 defaultEvent) ∧
    ((execute_plan ⟨3, 2⟩ okBackend (singleTaskState taskP 10)).trace.getD 0 defaultEvent).outcome =
        ExecOutcome.permissionDenied :=
  ⟨by decide,
    (c5_unapproved_task_halts_run ⟨3, 2⟩ okBackend (singleTaskState taskP 10) _
      (by decide) (by decide) (by decide)).1,
    (c5_unapproved_task_halts_run ⟨3, 2⟩ okBackend (singleTaskState taskP 10) _
      (by decide) (by decide) (by decide)).2.1⟩

/-! ## Claim C7: when the iteration counter moves -/

/-- C7 counterexample: a failing High-risk task ends Failed, yet the
session's `iteration_count` is still 0 — the `break` on a High/Critical
failure happens before `iteration_count += 1`, so the counter is incremented
zero times for that task, not exactly once. -/
theorem c7_high_risk_failure_skips_iteration_count :
    (execute_plan ⟨3, 2⟩ failingBackend (singleTaskState taskH 10)).state.iteration_count = 0 ∧
    ∃ u ∈ (execute_plan ⟨3, 2⟩ failingBackend (singleTaskState taskH 10)).state.current_plan,
      u.id = taskH.id ∧ u.status = TaskStatus.failed := by
  decide

/-- C7 (amended): the iteration counter grows by exactly 1 for each task
whose final outcome in that run is success, and for each task that fails
with risk level below High; a Failed task with High or Critical risk aborts
the run before the increment (and a `PermissionError` break also skips it),
so those final outcomes do not move the counter. -/
theorem c7_iteration_count_per_event (cfg : ExecCfg)
    (backend : Task → Nat → Except String String) (st : AgentState) :
    (execute_plan cfg backend st).state.iteration_count =
      st.iteration_count + (execute_plan cfg backend st).trace.countP countsIteration :=
  (execPlanLoopF_spec cfg backend _ st [] []).2.1

/-! ## Claim C4: a denied task is gone for good -/

/-- C4: for a task id with a pending approval entry, `deny_task` removes
every task with that id from the active plan, and a subsequent
`continue_execution` never dispatches it (no trace event carries the id) and
never completes it (given it was not already completed). -/
theorem c4_denied_task_never_dispatched (cfg : ExecCfg)
    (backend : Task → Nat → Except String String) (a : Auditor) (st : AgentState)
    (task_id reason : String)
    (hpend : a.pending_approvals.any (fun kv => kv.1 == task_id) = true)
    (hcomp : task_id ∉ st.completed_tasks.map Task.id) :
    (∀ u ∈ ((orch_deny_task a st task_id reason).2).current_plan, u.id ≠ task_id) ∧
    (∀ r, continue_execution cfg backend ((orch_deny_task a st task_id reason).2) = some r →
      (∀ e ∈ r.trace, e.task.id ≠ task_id) ∧
      task_id ∉ r.state.completed_tasks.map Task.id) := by
  obtain ⟨kv, hkv⟩ : ∃ kv, a.pending_approvals.find? (fun kv => kv.1 == task_id) = some kv := by
    rw [List.any_eq_true] at hpend
    obtain ⟨x, hx, hpx⟩ := hpend
    exact Option.isSome_iff_exists.mp (List.find?_isSome.mpr ⟨x, hx, hpx⟩)
  have hst2 : (orch_deny_task a st task_id reason).2 =
      { st with current_plan := st.current_plan.filter (fun t => !(t.id == task_id)) } := by
    simp [orch_deny_task, auditor_deny_task, hkv]
  have hplan2 : ∀ x ∈ ((orch_deny_task a st task_id reason).2).current_plan.map Task.id,
      x ≠ task_id := by
    rw [hst2]
    intro x hx
    rw [List.mem_map] at hx
    obtain ⟨u, hu, hux⟩ := hx
    rw [List.mem_filter] at hu
    have := hu.2
    simp only [Bool.not_eq_eq_eq_not, Bool.not_true, beq_eq_false_iff_ne] at this
    rw [← hux]
    exact this
  constructor
  · intro u hu
    exact hplan2 u.id (by rw [hst2] at hu ⊢; exact List.mem_map_of_mem Task.id hu)
  · intro r hr
    have hrr : r = execute_plan cfg backend ((orch_deny_task a st task_id reason).2) := by
      unfold continue_execution at hr
      by_cases hemp : (((orch_deny_task a st task_id reason).2).current_plan.filter
          (fun t => t.approved || !t.requires_approval)).isEmpty = true
      · rw [if_pos hemp] at hr
        exact absurd hr (by simp)
      · rw [if_neg hemp] at hr
        exact (Option.some.injEq _ _).mp hr.symm
    subst hrr
    have hspec := execPlanLoopF_spec cfg backend
      (((orch_deny_task a st task_id reason).2).max_iterations -
        ((orch_deny_task a st task_id reason).2).iteration_count + 1)
      ((orch_deny_task a st task_id reason).2) [] []
    constructor
    · intro e he heq
      exact hplan2 e.task.id (hspec.2.2.1 e he) heq
    · intro hx
      rcases hspec.2.2.2.1 task_id hx with h | h
      · rw [hst2] at h
        exact hcomp h
      · exact hplan2 task_id h rfl

/-- Witness for `c4_denied_task_never_dispatched`: deny `B` from the plan
`[B, A]` with a pending entry for `B`, then continue. -/
theorem c4_witness :
    c4Auditor.pending_approvals.any (fun kv => kv.1 == "B") = true ∧
    (∀ u ∈ ((orch_deny_task c4Auditor c3State "B" "policy").2).current_plan, u.id ≠ "B") ∧
    (∀ r, continue_execution ⟨3, 2⟩ okBackend ((orch_deny_task c4Auditor c3State "B" "policy").2) = some r →
      (∀ e ∈ r.trace, e.task.id ≠ "B") ∧
      "B" ∉ r.state.completed_tasks.map Task.id) :=
  ⟨by decide,
    (c4_denied_task_never_dispatched ⟨3, 2⟩ okBackend c4Auditor c3State "B" "policy"
      (by decide) (by decide)).1,
    (c4_denied_task_never_dispatched ⟨3, 2⟩ okBackend c4Auditor c3State "B" "policy"
      (by decide) (by decide)).2⟩

/-! ## Claim C6: retry exhaustion -/

/-- `get_next_task`'s scan returns nothing when no task is Pending. -/
theorem get_next_go_none (completed_ids : List String) :
    ∀ l j, (∀ u ∈ l, u.status ≠ TaskStatus.pending) →
      get_next_go completed_ids l j = none := by
  intro l
  induction l with
  | nil => intro j h; rfl
  | cons u rest ih =>
    intro j h
    simp only [get_next_go]
    rw [if_neg (by simp [h u (List.mem_cons_self u rest)])]
    exact ih (j + 1) (fun v hv => h v (List.mem_cons_of_mem u hv))

/-- When no task in the plan is Pending, the loop stops without changing
anything (either the guard is false, or the selection comes back empty and
the Blocked sweep finds nothing to mark). -/
theorem execPlanLoopF_no_pending (cfg : ExecCfg)
    (backend : Task → Nat → Except String String)
    (fuel : Nat) (st : AgentState) (res : List (String × String)) (fl : List Task)
    (h : ∀ u ∈ st.current_plan, u.status ≠ TaskStatus.pending) :
    execPlanLoopF cfg backend fuel st res fl =
      { state := st, results := res, failed_tasks := fl, trace := [] } := by
  cases fuel with
  | zero => rfl
  | succ f =>
    simp only [execPlanLoopF]
    by_cases hguard : (st.current_plan ≠ [] ∧ should_continue st = true)
    · rw [if_pos hguard]
      have hnone : get_next_task st = none := by
        unfold get_next_task
        exact get_next_go_none _ _ 0 h
      simp only [hnone]
      have hany : (st.current_plan.any (fun t => t.status == TaskStatus.pending)) = false := by
        rw [← Bool.not_eq_true, List.any_eq_true]
        rintro ⟨u, hu, hpu⟩
        exact h u hu (by simpa using hpu)
      rw [if_neg (by simp [hany])]
    · rw [if_neg hguard]

/-- C6: a task whose backend fails on every attempt is attempted exactly
`max_retries` times with linear back-off sleeps
`retry_delay * 1, …, retry_delay * (max_retries - 1)`, and ends Failed in the
plan with `retry_count = max_retries` and the captured error. -/
theorem c6_retry_exhaustion (cfg : ExecCfg)
    (backend : Task → Nat → Except String String) (t : Task) (M : Nat)
    (hmr : 1 ≤ cfg.max_retries) (hrc : t.retry_count = 0)
    (hst : t.status = TaskStatus.pending) (hdeps : t.dependencies = [])
    (happ : (t.requires_approval && !t.approved) = false)
    (hfail : ∀ u n, ∃ e, backend u n = Except.error e) (hM : 0 < M) :
    ∃ e, (execute_plan cfg backend (singleTaskState t M)).trace =
        [ { task := t, completed_ids := [], outcome := ExecOutcome.failure e,
            attempts := cfg.max_retries,
            sleeps := (List.range (cfg.max_retries - 1)).map
                        (fun k => cfg.retry_delay * (k + 1)) } ] ∧
      (execute_plan cfg backend (singleTaskState t M)).state.current_plan =
        [ { t with status := TaskStatus.failed, retry_count := cfg.max_retries, error := some e } ] := by
  obtain ⟨e, he⟩ := execute_taskF_allfail cfg backend hfail
    (cfg.max_retries - t.retry_count + 1) t happ (by omega) (by omega)
  have hexec : execute_task cfg backend t =
      { outcome := .failure e,
        task := { t with status := TaskStatus.in_progress, retry_count := cfg.max_retries },
        attempts := cfg.max_retries,
        sleeps := (List.range (cfg.max_retries - 1)).map
                    (fun k => cfg.retry_delay * (k + 1)) } := by
    unfold execute_task
    rw [he, hrc]
    have ha : cfg.max_retries - 0 = cfg.max_retries := by omega
    have hs : (List.range (cfg.max_retries - 0 - 1)).map
        (fun k => cfg.retry_delay * (0 + 1 + k)) =
        (List.range (cfg.max_retries - 1)).map (fun k => cfg.retry_delay * (k + 1)) := by
      rw [Nat.sub_zero]
      exact List.map_congr_left (fun k hk => by ring)
    congr 1
  refine ⟨e, ?_⟩
  unfold execute_plan
  rw [show (singleTaskState t M).max_iterations - (singleTaskState t M).iteration_count + 1 =
        M + 1 from by simp [singleTaskState]]
  simp only [execPlanLoopF]
  rw [if_pos ⟨by simp [singleTaskState], by simp [should_continue, singleTaskState, hM]⟩]
  have hnext : get_next_task (singleTaskState t M) = some (0, t) := by
    simp [get_next_task, singleTaskState, get_next_go, hst, hdeps]
  simp only [hnext, hexec]
  by_cases hrisk : (t.risk_level == RiskLevel.high || t.risk_level == RiskLevel.critical) = true
  · rw [if_pos hrisk]
    refine ⟨by simp [singleTaskState], ?_⟩
    simp [singleTaskState, mark_task_failed, failFirst]
  · rw [if_neg hrisk]
    rw [execPlanLoopF_no_pending cfg backend M _ _ _
      (by simp [singleTaskState, mark_task_failed, failFirst])]
    refine ⟨by simp [singleTaskState], ?_⟩
    simp [singleTaskState, mark_task_failed, failFirst]

/-- Witness for `c6_retry_exhaustion`: `taskA` with `max_retries = 3`,
`retry_delay = 2` and an always-failing backend. -/
theorem c6_witness :
    taskA.retry_count = 0 ∧
    ∃ e, (execute_plan ⟨3, 2⟩ failingBackend (singleTaskState taskA 10)).trace =
        [ { task := taskA, completed_ids := [], outcome := ExecOutcome.failure e,
            attempts := (⟨3, 2⟩ : ExecCfg).max_retries,
            sleeps := (List.range ((⟨3, 2⟩ : ExecCfg).max_retries - 1)).map
                        (fun k => (⟨3, 2⟩ : ExecCfg).retry_delay * (k + 1)) } ] ∧
      (execute_plan ⟨3, 2⟩ failingBackend (singleTaskState taskA 10)).state.current_plan =
        [ { taskA with status := TaskStatus.failed, retry_count := (⟨3, 2⟩ : ExecCfg).max_retries, error := some "boom" } ] := by
  refine ⟨rfl, ?_⟩
  obtain ⟨e, h1, h2⟩ := c6_retry_exhaustion ⟨3, 2⟩ failingBackend taskA 10 (by decide) rfl rfl
    rfl rfl (fun u n => ⟨"boom", rfl⟩) (by decide)
  have h5 : ((execute_plan ⟨3, 2⟩ failingBackend (singleTaskState taskA 10)).trace.getD 0
      defaultEvent).outcome = ExecOutcome.failure e := by
    rw [h1]
    rfl
  have h6 : ((execute_plan ⟨3, 2⟩ failingBackend (singleTaskState taskA 10)).trace.getD 0
      defaultEvent).outcome = ExecOutcome.failure "boom" := by decide
  have he : e = "boom" := by
    have h7 := h5.symm.trans h6
    injection h7
  subst he
  exact ⟨"boom", h1, h2⟩

/-! ## Claim C10: the plan/completed disjointness invariant -/

/-- C10: starting from a state with distinct plan ids and disjoint
plan/completed ids, `mark_task_complete` preserves the invariant and moves
the task with status Completed; `mark_task_failed` preserves it and leaves
the completed list untouched; the orchestrator's denial filter preserves it
and leaves the completed list untouched. -/
theorem c10_state_invariant (st : AgentState) (a : Auditor)
    (task_id result err tid reason : String) (h : Inv st) :
    Inv (mark_task_complete st task_id result) ∧
    (∀ u ∈ (completeSplit task_id result st.current_plan).2,
      u.status = TaskStatus.completed) ∧
    Inv (mark_task_failed st task_id err) ∧
    (mark_task_failed st task_id err).completed_tasks = st.completed_tasks ∧
    Inv ((orch_deny_task a st tid reason).2) ∧
    ((orch_deny_task a st tid reason).2).completed_tasks = st.completed_tasks := by
  obtain ⟨hnd, hdisj⟩ := h
  have hsub := (completeSplit_fst_sublist task_id result st.current_plan).map Task.id
  refine ⟨⟨hnd.sublist hsub, ?_⟩, ?_, ⟨?_, ?_⟩, rfl, ?_, ?_⟩
  · intro x hx
    show x ∉ (st.completed_tasks ++ (completeSplit task_id result st.current_plan).2).map Task.id
    rw [List.map_append, List.mem_append]
    rw [List.mem_map] at hx
    obtain ⟨v, hv, hvx⟩ := hx
    rintro (hc | hm)
    · exact hdisj x (hsub.subset (hvx ▸ List.mem_map_of_mem Task.id hv)) hc
    · rw [List.mem_map] at hm
      obtain ⟨u, hu, hux⟩ := hm
      exact completeSplit_not_mem task_id result st.current_plan hnd u hu v hv (by rw [hvx, hux])
  · intro u hu
    exact (completeSplit_snd_spec task_id result st.current_plan u hu).2.2
  · show ((failFirst task_id err st.current_plan).map Task.id).Nodup
    rw [failFirst_map_id]
    exact hnd
  · intro x hx
    show x ∉ st.completed_tasks.map Task.id
    rw [show (mark_task_failed st task_id err).current_plan =
      failFirst task_id err st.current_plan from rfl, failFirst_map_id] at hx
    exact hdisj x hx
  · cases hfind : a.pending_approvals.find? (fun kv => kv.1 == tid) with
    | none =>
      simp only [orch_deny_task, auditor_deny_task, hfind]
      exact ⟨hnd, hdisj⟩
    | some kv =>
      simp only [orch_deny_task, auditor_deny_task, hfind]
      have hsub2 := (List.filter_sublist (l := st.current_plan)
        (p := fun t => !(t.id == tid))).map Task.id
      exact ⟨hnd.sublist hsub2, fun x hx => hdisj x (hsub2.subset hx)⟩
  · cases hfind : a.pending_approvals.find? (fun kv => kv.1 == tid) with
    | none => simp [orch_deny_task, auditor_deny_task, hfind]
    | some kv => simp [orch_deny_task, auditor_deny_task, hfind]

/-- Witness for `c10_state_invariant` on the two-task plan `[B, A]`. -/
theorem c10_witness :
    Inv c3State ∧
    Inv (mark_task_complete c3State "A" "res") ∧
    Inv (mark_task_failed c3State "B" "err") :=
  ⟨by decide,
    (c10_state_invariant c3State c4Auditor "A" "res" "err" "B" "r" (by decide)).1,
    (c10_state_invariant c3State c4Auditor "A" "res" "err" "B" "r" (by decide)).2.2.1⟩

/-! ## Fuel irrelevance for the plan loop -/

/-- The fuel argument of `execPlanLoopF` is irrelevant as long as it exceeds
`max_iterations - iteration_count`: every looping iteration increments
`iteration_count`, so from the fuel chosen by `execute_plan` the
fuel-exhausted branch is unreachable. -/
theorem execPlanLoopF_fuel_irrelevant (cfg : ExecCfg)
    (backend : Task → Nat → Except String String) :
    ∀ f₁ f₂ st res fl, st.max_iterations - st.iteration_count < f₁ →
      st.max_iterations - st.iteration_count < f₂ →
      execPlanLoopF cfg backend f₁ st res fl = execPlanLoopF cfg backend f₂ st res fl := by
  intro f₁
  induction f₁ with
  | zero => intro f₂ st res fl h1 h2; omega
  | succ f ih =>
    intro f₂ st res fl h1 h2
    cases f₂ with
    | zero => omega
    | succ g =>
      simp only [execPlanLoopF]
      by_cases hguard : (st.current_plan ≠ [] ∧ should_continue st = true)
      · rw [if_pos hguard, if_pos hguard]
        have hic : st.iteration_count < st.max_iterations := by
          have h3 := hguard.2
          simp only [should_continue, Bool.and_eq_true, decide_eq_true_eq] at h3
          exact h3.1.2
        cases hn : get_next_task st with
        | none => simp only [hn]
        | some it =>
          obtain ⟨i, t⟩ := it
          simp only [hn]
          cases ho : (execute_task cfg backend t).outcome with
          | permissionDenied => simp only [ho]
          | success r0 =>
            simp only [ho]
            rw [ih g]
            · show st.max_iterations - (st.iteration_count + 1) < f
              omega
            · show st.max_iterations - (st.iteration_count + 1) < g
              omega
          | failure e0 =>
            simp only [ho]
            by_cases hrisk : (t.risk_level == RiskLevel.high ||
                t.risk_level == RiskLevel.critical) = true
            · rw [if_pos hrisk, if_pos hrisk]
            · rw [if_neg hrisk, if_neg hrisk]
              rw [ih g]
              · show st.max_iterations - (st.iteration_count + 1) < f
                omega
              · show st.max_iterations - (st.iteration_count + 1) < g
                omega
      · rw [if_neg hguard, if_neg hguard]

end OpenAegis
